import Mathlib

/-!
Verification development for `swagger-to-har.js`: a shallow embedding of the
module's functions over a JSON value model, together with theorems settling
the specification claims about reference resolution, value synthesis,
header/query/path classification, payload building and batch conversion.

JavaScript semantics modelled here:
* `undefined` is `Option.none`; every defined JavaScript value is a `Json`.
* Property access `x.k` on `undefined`/`null` throws (`Except.error`);
  on any other value it yields the property or `undefined`.
* String coercion (`x + ""`, `String(x)`) follows the JS `ToString` rules
  for the value shapes the module can produce.
* Numbers are modelled as integers (the module never computes with floats).
-/

inductive Json where
  | null : Json
  | bool : Bool → Json
  | num : Int → Json
  | str : String → Json
  | arr : List Json → Json
  | obj : List (String × Json) → Json
deriving Repr

namespace Json

/-- First-match association lookup, the JS object property table
(JS objects cannot hold duplicate keys, so first-match is exact). -/
def lookupField : List (String × Json) → String → Option Json
  | [], _ => none
  | (k, v) :: rest, key => if k = key then some v else lookupField rest key

/-- Replace the first binding of `key` (JS property assignment); append when absent. -/
def setFieldList : List (String × Json) → String → Json → List (String × Json)
  | [], key, v => [(key, v)]
  | (k, w) :: rest, key, v =>
    if k = key then (k, v) :: rest else (k, w) :: setFieldList rest key v

end Json

/-- Canonical numeric property key (structural replacement for `String.toNat?`
so that closed runs reduce definitionally). -/
def keyToNat? (s : String) : Option Nat :=
  if s.data ≠ [] ∧ s.data.all Char.isDigit then
    some (s.data.foldl (fun n c => n * 10 + (c.toNat - 48)) 0)
  else none

namespace Json

/-- Property read on a *defined, non-null* JS value: objects by key, arrays and
strings by numeric index, primitives have no own properties. `Json.null` is
handled by `jsGetE` (access on null throws); here it yields `none` but is
never reached without the null check. -/
def get : Json → String → Option Json
  | obj fs, key => lookupField fs key
  | arr xs, key =>
    match keyToNat? key with
    | some i => xs.get? i
    | none => none
  | str s, key =>
    match keyToNat? key with
    | some i => (s.data.get? i).map (fun c => Json.str (String.mk [c]))
    | none => none
  | _, _ => none

/-- Property assignment `j[key] = v` on an object (identity on non-objects,
matching the silent no-op of sloppy-mode JS on primitives). -/
def setField : Json → String → Json → Json
  | obj fs, key, v => obj (setFieldList fs key v)
  | j, _, _ => j

/-- JS truthiness of a defined value. -/
def truthy : Json → Bool
  | null => false
  | bool b => b
  | num n => n ≠ 0
  | str s => s ≠ ""
  | arr _ => true
  | obj _ => true

end Json

/-- JS truthiness including `undefined`. -/
def truthyO : Option Json → Bool
  | none => false
  | some j => j.truthy

/-- ASCII `toLowerCase` (structural: JS lower-cases the ASCII names this
module compares; defined over the character list so closed runs reduce). -/
def asciiLower (s : String) : String := String.mk (s.data.map Char.toLower)

/-- ASCII `toUpperCase`. -/
def asciiUpper (s : String) : String := String.mk (s.data.map Char.toUpper)

/-- `/^http/.test(s)`: does the string start with `http`? -/
def jsStartsWithHttp (s : String) : Bool := "http".data.isPrefixOf s.data

/-- `s.split("/")` (structural replacement for `String.splitOn "/"`,
agreeing with the JS split on every input). -/
def splitSlashAux : List Char → List (List Char)
  | [] => [[]]
  | c :: cs =>
    let r := splitSlashAux cs
    if c = '/' then [] :: r
    else
      match r with
      | [] => [[c]]
      | h :: t => (c :: h) :: t

def splitSlash (s : String) : List String := (splitSlashAux s.data).map String.mk

/- JS `ToString` on a defined value. Arrays join their elements with commas,
`null`/nested-array elements following `Array.prototype.join`. -/
mutual
def jsToStrJ : Json → String
  | .null => "null"
  | .bool true => "true"
  | .bool false => "false"
  | .num n => toString n
  | .str s => s
  | .arr xs => jsArrJoin xs
  | .obj _ => "[object Object]"

def jsArrJoin : List Json → String
  | [] => ""
  | [x] => jsArrElem x
  | x :: xs => jsArrElem x ++ "," ++ jsArrJoin xs

def jsArrElem : Json → String
  | .null => ""
  | .bool true => "true"
  | .bool false => "false"
  | .num n => toString n
  | .str s => s
  | .arr xs => jsArrJoin xs
  | .obj _ => "[object Object]"
end

/-- JS `ToString` including `undefined` (so `x + ""` and property-key coercion). -/
def jsToString : Option Json → String
  | none => "undefined"
  | some j => jsToStrJ j

/-- JS property access `base[key]`: throws `TypeError` on `undefined` and
`null`, otherwise a plain (possibly `undefined`) property read. -/
def jsGetE : Option Json → String → Except String (Option Json)
  | none, key => .error ("TypeError: cannot read property " ++ key ++ " of undefined")
  | some .null, key => .error ("TypeError: cannot read property " ++ key ++ " of null")
  | some j, key => .ok (j.get key)

/-- JS `x.toUpperCase()`: throws unless `x` is a string. -/
def jsToUpperE : Option Json → Except String String
  | some (.str s) => .ok (asciiUpper s)
  | _ => .error "TypeError: toUpperCase is not a function"

/-- JS `x.toLowerCase()`: throws unless `x` is a string. -/
def jsToLowerE : Json → Except String String
  | .str s => .ok (asciiLower s)
  | _ => .error "TypeError: toLowerCase is not a function"

/-- JS `x.length` read: arrays and strings report their length, objects read
their `length` property, primitives have none. -/
def jsLength : Json → Option Json
  | .arr xs => some (.num xs.length)
  | .str s => some (.num s.length)
  | .obj fs => Json.lookupField fs "length"
  | _ => none

/-- `x > 0` for the values `length` can produce (numeric comparison). -/
def jsGtZero : Option Json → Bool
  | some (.num n) => n > 0
  | _ => false

/-- Truthiness of the optional `apiKey` string argument. -/
def apiKeyTruthy : Option String → Bool
  | none => false
  | some s => !s.data.isEmpty

/-- `for (var k in x)` key/value enumeration: own enumerable properties of
objects, index/element pairs of arrays and strings, nothing on primitives,
`null` and `undefined`. -/
def forInPairs : Json → List (String × Json)
  | .obj fs => fs
  | .arr xs => (xs.enum.map fun p => (toString p.1, p.2))
  | .str s => (s.data.enum.map fun p => (toString p.1, Json.str (String.mk [p.2])))
  | _ => []

def forInPairsO : Option Json → List (String × Json)
  | none => []
  | some j => forInPairs j

/-! ## Reference Resolver (`resolveRef`, swagger-to-har.js lines 295-310) -/

/-- The inner `recursive` walk of `resolveRef`: successive property lookups
through the remaining pointer segments; the final segment is a plain read
(which may yield `undefined`), every earlier one feeds the next access
(so a missing intermediate key throws on the following access). -/
def resolveWalkE : Option Json → List String → Except String (Option Json)
  | obj, [] => .ok obj
  | obj, [k] => jsGetE obj k
  | obj, k :: k2 :: rest => do
    let next ← jsGetE obj k
    resolveWalkE next (k2 :: rest)

/-- `resolveRef(oai, ref)`: split on `/`; fewer than two segments yield the
empty-object fallback; otherwise walk from segment 1 onward. -/
def resolveRefE (oai : Json) (ref : String) : Except String (Option Json) :=
  let parts := splitSlash ref
  if parts.length ≤ 1 then .ok (some (Json.obj []))
  else resolveWalkE (some oai) (parts.drop 1)

/-- The `$ref` pre-resolution step shared verbatim by `getQueryStrings`
(lines 164-166) and `getPathParams` (lines 323-325): a parameter whose
`$ref` is a string not starting with `http` is replaced by the
`resolveRef` result; anything else passes through. -/
def paramRefResolveE (swagger : Json) (p0 : Json) : Except String (Option Json) := do
  let refOpt ← jsGetE (some p0) "$ref"
  match refOpt with
  | some (.str s) =>
    if ¬ jsStartsWithHttp s then resolveRefE swagger s else pure (some p0)
  | _ => pure (some p0)

/-! ## Schema Resolver (`getResolvedSchema`, lines 105-129)

The source resolves in place (aliasing the definition node into the tree);
the embedding threads the updated nodes functionally, which yields the same
structure for any terminating run. The unbounded JS recursion is modelled
with explicit fuel; running out of fuel is the stack-overflow `RangeError`. -/

/-- Last pointer segment: `s.split("/").slice(-1)[0]`. -/
def lastSeg (s : String) : String := ((splitSlash s).getLast?).getD ""

/-- Body of the `properties` loop (lines 108-115) for one property value:
replace a local string `$ref` by `swagger.definitions[<last segment>]`
(reading `prop["$ref"]` throws on a null property), then recurse into the
stored value via `rc` (recursing into `undefined` throws there). -/
def propStepE (swagger : Json) (rc : Option Json → Except String Json) (v : Json) :
    Except String Json := do
  let refOpt ← jsGetE (some v) "$ref"
  let v1 : Option Json ←
    match refOpt with
    | some (.str s) =>
      if ¬ jsStartsWithHttp s then jsGetE (Json.get swagger "definitions") (lastSeg s)
      else pure (some v)
    | _ => pure (some v)
  rc v1

/-- `for (var propKey in schema.properties)` over an object of properties. -/
def propsLoopE (swagger : Json) (rc : Option Json → Except String Json) :
    List (String × Json) → Except String (List (String × Json))
  | [] => .ok []
  | (k, v) :: rest => do
    let v2 ← propStepE swagger rc v
    let rest2 ← propsLoopE swagger rc rest
    pure ((k, v2) :: rest2)

/-- The same loop when `properties` is an array (`for-in` enumerates indices). -/
def propsArrLoopE (swagger : Json) (rc : Option Json → Except String Json) :
    List Json → Except String (List Json)
  | [] => .ok []
  | v :: rest => do
    let v2 ← propStepE swagger rc v
    let rest2 ← propsArrLoopE swagger rc rest
    pure (v2 :: rest2)

/-- The `items` loop (lines 119-125): iterate the keys enumerated from the
*original* items value while `schema.items` is reassigned in place; on the
`$ref` key the current value is re-read, coerced for the `^http` test, split
(throwing on non-strings) and replaced by the definitions entry; every
iteration recurses into the current items value. -/
def itemsLoopE (swagger : Json) (rc : Option Json → Except String Json) :
    List String → Json → Except String Json
  | [], cur => .ok cur
  | k :: ks, cur => do
    let cur1 : Option Json ←
      if k = "$ref" then do
        let v ← jsGetE (some cur) "$ref"
        if ¬ jsStartsWithHttp (jsToString v) then
          match v with
          | some (.str s) => jsGetE (Json.get swagger "definitions") (lastSeg s)
          | _ => .error "TypeError: split is not a function"
        else pure (some cur)
      else pure (some cur)
    let cur2 ← rc cur1
    itemsLoopE swagger rc ks cur2

/-- `getResolvedSchema(swagger, schema)`: dispatch on `schema.type`
(the read throws on `undefined`/`null`), walk `properties` of object-typed
nodes and `items` of array-typed nodes, and return the (rebuilt) node. -/
def getResolvedSchemaE : Nat → Json → Option Json → Except String Json
  | 0, _, _ => .error "RangeError: maximum call stack size exceeded"
  | Nat.succ fuel, swagger, schemaOpt =>
    match schemaOpt with
    | none => .error "TypeError: cannot read property type of undefined"
    | some .null => .error "TypeError: cannot read property type of null"
    | some schema =>
      match Json.get schema "type" with
      | some (Json.str "object") =>
        (match Json.get schema "properties" with
        | none => .ok schema
        | some (.obj fs) => do
          let fs2 ← propsLoopE swagger (getResolvedSchemaE fuel swagger) fs
          pure (Json.setField schema "properties" (Json.obj fs2))
        | some (.arr xs) => do
          let xs2 ← propsArrLoopE swagger (getResolvedSchemaE fuel swagger) xs
          pure (Json.setField schema "properties" (Json.arr xs2))
        | some _ => .ok schema)
      | some (Json.str "array") =>
        (match Json.get schema "items" with
        | none => .ok schema
        | some items => do
          let items2 ← itemsLoopE swagger (getResolvedSchemaE fuel swagger)
            ((forInPairs items).map Prod.fst) items
          pure (Json.setField schema "items" items2))
      | _ => .ok schema

/-- Is this value a local (non-HTTP) reference string? -/
def isLocalRefStr : Json → Bool
  | .str s => !jsStartsWithHttp s
  | _ => false

/- `true` when the subtree holds a local (non-HTTP) `$ref` binding anywhere. -/
mutual
def containsLocalRef : Json → Bool
  | .obj fs => containsLocalRefFields fs
  | .arr xs => containsLocalRefList xs
  | _ => false

def containsLocalRefFields : List (String × Json) → Bool
  | [] => false
  | (k, v) :: rest =>
    (k = "$ref" && isLocalRefStr v) || containsLocalRef v || containsLocalRefFields rest

def containsLocalRefList : List Json → Bool
  | [] => false
  | v :: rest => containsLocalRef v || containsLocalRefList rest
end

/-! ## Parameter classification and value synthesis -/

/-- An emitted `{name, value[, type]}` record (header, query-string, path-param
or required-header entry). Query-string entries carry no `type` field in the
source; here `etype` is simply `none` for them. -/
structure Entry where
  name : Option Json
  value : Option Json
  etype : Option Json := none
deriving Repr

/-- `{mimeType, text}` of `postData`. -/
structure PostData where
  mimeType : String
  text : String
deriving Repr

/-- `param.name === 'Authorization'` (strict equality against the literal). -/
def isAuthName : Option Json → Bool
  | some (.str s) => s = "Authorization"
  | _ => false

/-- `swagger.paths[path][method]` (both accesses can throw). -/
def getOperationE (swagger : Json) (path method : String) : Except String (Option Json) := do
  let p1 ← jsGetE (Json.get swagger "paths") path
  jsGetE p1 method

/-- The fallback chain of `getQueryStrings` (lines 177-182): value-map entry,
then `default`, then the `SOME_<TYPE>_VALUE` placeholder (whose
`type.toUpperCase()` throws when the type is undefined or not a string). -/
def qsFallbackE (values : Json) (param : Option Json) (nameOpt ty : Option Json) :
    Except String String := do
  let mapped ← jsGetE (some values) (jsToString nameOpt)
  match mapped with
  | none =>
    (match ← jsGetE param "default" with
    | none => do
      let tyU ← jsToUpperE ty
      pure ("SOME_" ++ tyU ++ "_VALUE")
    | some d => pure (jsToStrJ d))
  | some v => pure (jsToStrJ v)

/-- Line 173 as parsed: `(typeof param.schema) && (param.schema.example
!== 'undefined') ? param.schema.example + "" : undefined` — the `typeof`
string is always truthy, so the stringified example is produced unless the
example is the literal string `"undefined"`. -/
def qsExampleVal (exOpt : Option Json) : Option String :=
  match exOpt with
  | some (.str "undefined") => none
  | _ => some (jsToString exOpt)

/-- `exampleVal ? exampleVal : <fallback>` (line 177): the example string
when truthy (nonempty), the fallback chain otherwise (the fallback is an
unevaluated `Except` computation, preserving the laziness of the ternary). -/
def qsPickValue (ev : Option String) (fb : Except String String) : Except String String :=
  match ev with
  | some s => if s ≠ "" then pure s else fb
  | none => fb

/-- `param.example ? param.example : <fallback>` (lines 332-339 and 242-244):
the raw example value when truthy, the fallback computation otherwise. -/
def rawPickValue (exOpt : Option Json) (fb : Except String Json) : Except String Json :=
  if truthyO exOpt then pure (exOpt.getD Json.null) else fb

/-- Post-resolution body of the `getQueryStrings` loop (lines 167-185).
Line 173 parses as `(typeof param.schema) && (param.schema.example !== 'undefined')`:
the `typeof` string is always truthy, so `exampleVal` is the stringified
`schema.example` unless the example is the literal string `"undefined"` —
in particular the string `"undefined"` when no example is declared. -/
def qsCoreE (values : Json) (param : Option Json) : Except String (Option Entry) := do
  let inOpt ← jsGetE param "in"
  match inOpt with
  | none => pure none
  | some inVal => do
    let lower ← jsToLowerE inVal
    if lower = "query" then do
      let ty ←
        if inVal.truthy then do
          let sch ← jsGetE param "schema"
          jsGetE sch "type"
        else jsGetE param "type"
      let sch2 ← jsGetE param "schema"
      let exOpt ← jsGetE sch2 "example"
      let exampleVal : Option String := qsExampleVal exOpt
      let nameOpt ← jsGetE param "name"
      let value ← qsPickValue exampleVal (qsFallbackE values param nameOpt ty)
      pure (some { name := nameOpt, value := some (Json.str value) })
    else pure none

/-- Loop of `getQueryStrings` over the enumerated parameter values. -/
def qsLoopE (swagger values : Json) : List Json → Except String (List Entry)
  | [] => .ok []
  | p0 :: rest => do
    let param ← paramRefResolveE swagger p0
    let e ← qsCoreE values param
    let es ← qsLoopE swagger values rest
    pure (e.toList ++ es)

/-- `getQueryStrings(swagger, path, method, values)` (lines 153-190); the
caller-side `undefined → {}` defaulting is applied by `createHar` below. -/
def getQueryStringsE (swagger : Json) (path method : String) (values : Json) :
    Except String (List Entry) := do
  let opOpt ← getOperationE swagger path method
  let paramsOpt ← jsGetE opOpt "parameters"
  match paramsOpt with
  | none => pure []
  | some params => qsLoopE swagger values ((forInPairs params).map Prod.snd)

/-- The fallback chain of the path-parameter value (lines 334-339): the
`values` map entry (the map is always the empty global object), then
`default`, then the type placeholder, each stringified. -/
def ppFallbackE (values : Json) (param : Option Json) (nameOpt ty : Option Json) :
    Except String Json := do
  let mapped ← jsGetE (some values) (jsToString nameOpt)
  match mapped with
  | none =>
    (match ← jsGetE param "default" with
    | none => do
      let tyU ← jsToUpperE ty
      pure (Json.str ("SOME_" ++ tyU ++ "_VALUE"))
    | some d => pure (Json.str (jsToStrJ d)))
  | some v => pure (Json.str (jsToStrJ v))

/-- Post-resolution body of the `getPathParams` loop (lines 326-346).
`values` here is the function's undeclared global, which is always the empty
object: no caller-supplied value map can reach path synthesis. The truthy
`example` is emitted raw; the fallback mirrors the query chain. -/
def ppCoreE (values : Json) (param : Option Json) : Except String (Option Entry) := do
  let inOpt ← jsGetE param "in"
  match inOpt with
  | none => pure none
  | some inVal => do
    let lower ← jsToLowerE inVal
    if lower = "path" then do
      let ty ←
        if inVal.truthy then do
          let sch ← jsGetE param "schema"
          jsGetE sch "type"
        else jsGetE param "type"
      let exOpt ← jsGetE param "example"
      let nameOpt ← jsGetE param "name"
      let value : Json ← rawPickValue exOpt (ppFallbackE values param nameOpt ty)
      let sch2 ← jsGetE param "schema"
      let ty2 ← jsGetE sch2 "type"
      pure (some { name := nameOpt, value := some value, etype := ty2 })
    else pure none

/-- Loop of `getPathParams` over the enumerated parameter values. -/
def ppLoopE (swagger values : Json) : List Json → Except String (List Entry)
  | [] => .ok []
  | p0 :: rest => do
    let param ← paramRefResolveE swagger p0
    let e ← ppCoreE values param
    let es ← ppLoopE swagger values rest
    pure (e.toList ++ es)

/-- `getPathParams(swagger, path, method)` (lines 312-351). -/
def getPathParamsE (swagger : Json) (path method : String) :
    Except String (List Entry) := do
  let opOpt ← getOperationE swagger path method
  let paramsOpt ← jsGetE opOpt "parameters"
  match paramsOpt with
  | none => pure []
  | some params => ppLoopE swagger (Json.obj []) ((forInPairs params).map Prod.snd)

/-- `Object.keys(contentObj)[0]` (line 390); `Object.keys` throws on `null`. -/
def firstContentTypeE : Json → Except String (Option String)
  | .null => .error "TypeError: cannot convert null to object"
  | .obj fs => .ok (fs.head?.map Prod.fst)
  | .arr xs => .ok (if xs.isEmpty then none else some "0")
  | .str s => .ok (if s.data.isEmpty then none else some "0")
  | _ => .ok none

/- Body of the header loops for one parameter (lines 229-247 and 362-381):
required header parameters only; an `Authorization` header with a truthy
API key is special-cased, every other required header emits the raw truthy
`example` or the name-based placeholder. The `bearer` flag distinguishes
`getHeadersArray` (value `"Bearer " + apiKey`) from `getRequiredHeaderParams`
(raw `apiKey`). Neither loop resolves `$ref` parameter entries. -/

/-- The `Authorization`-with-API-key branch (lines 234-238 / 368-372). -/
def hdrAuthEntryE (bearer : Bool) (apiKey : Option String) (p0 : Json) :
    Except String (Option Entry) := do
  let ty ← jsGetE (Json.get p0 "schema") "type"
  let keyVal := apiKey.getD ""
  pure (some { name := Json.get p0 "name",
               value := some (Json.str (if bearer then "Bearer " ++ keyVal else keyVal)),
               etype := ty })

/-- The header name placeholder `"SOME_" + param.name.toUpperCase() + "_VALUE"`. -/
def hdrPlaceholderE (nameOpt : Option Json) : Except String Json := do
  let nmU ← jsToUpperE nameOpt
  pure (Json.str ("SOME_" ++ nmU ++ "_VALUE"))

/-- The ordinary required-header branch (lines 240-246 / 374-380). -/
def hdrPlainEntryE (p0 : Json) : Except String (Option Entry) := do
  let value : Json ← rawPickValue (Json.get p0 "example") (hdrPlaceholderE (Json.get p0 "name"))
  let ty ← jsGetE (Json.get p0 "schema") "type"
  pure (some { name := Json.get p0 "name", value := some value, etype := ty })

def hdrStepE (bearer : Bool) (apiKey : Option String) (p0 : Json) :
    Except String (Option Entry) := do
  let inOpt ← jsGetE (some p0) "in"
  match inOpt with
  | none => pure none
  | some inVal => do
    let lower ← jsToLowerE inVal
    if lower = "header" ∧ truthyO (Json.get p0 "required") then
      if isAuthName (Json.get p0 "name") ∧ apiKeyTruthy apiKey then
        hdrAuthEntryE bearer apiKey p0
      else hdrPlainEntryE p0
    else pure none

/-- Loop of the two header extractors over the enumerated parameter values. -/
def hdrLoopE (bearer : Bool) (apiKey : Option String) : List Json → Except String (List Entry)
  | [] => .ok []
  | p0 :: rest => do
    let e ← hdrStepE bearer apiKey p0
    let es ← hdrLoopE bearer apiKey rest
    pure (e.toList ++ es)

/-- The content-type selection of `getHeadersArray` (lines 206-211): the first
request-body content type when `pathObj && pathObj.requestBody &&
pathObj.requestBody.content` is truthy, else the `application/json` fallback. -/
def headersContentTypeE (pathObj : Option Json) : Except String (Option String) :=
  match pathObj with
  | some po =>
    if po.truthy then
      match Json.get po "requestBody" with
      | some rb =>
        if rb.truthy then
          match Json.get rb "content" with
          | some c => if c.truthy then firstContentTypeE c else pure (some "application/json")
          | none => pure (some "application/json")
        else pure (some "application/json")
      | none => pure (some "application/json")
    else pure (some "application/json")
  | none => pure (some "application/json")

/-- `getHeadersArray(swagger, path, method, apiKey)` (lines 201-252): the
unconditional `accept`/`content-type` pair followed by the required declared
headers. -/
def getHeadersArrayE (swagger : Json) (path method : String) (apiKey : Option String) :
    Except String (List Entry) := do
  let pathObj ← getOperationE swagger path method
  let ctOpt ← headersContentTypeE pathObj
  let ctJson : Option Json := ctOpt.map Json.str
  let acceptHdr : Entry := { name := some (Json.str "accept"), value := ctJson }
  let ctHdr : Entry := { name := some (Json.str "content-type"), value := ctJson }
  let paramsOpt ← jsGetE pathObj "parameters"
  let declared ←
    match paramsOpt with
    | none => pure []
    | some params => hdrLoopE true apiKey ((forInPairs params).map Prod.snd)
  pure (acceptHdr :: ctHdr :: declared)

/-- `getRequiredHeaderParams(swagger, path, method, apiKey)` (lines 353-387). -/
def getRequiredHeaderParamsE (swagger : Json) (path method : String) (apiKey : Option String) :
    Except String (List Entry) := do
  let pathObj ← getOperationE swagger path method
  let paramsOpt ← jsGetE pathObj "parameters"
  match paramsOpt with
  | none => pure []
  | some params => hdrLoopE false apiKey ((forInPairs params).map Prod.snd)

/-! ## Payload builder, base URL and request assembly -/

/- `JSON.stringify` for defined JSON values (the instantiator's output). -/
def jsonEscapeChar (c : Char) : String :=
  if c = '"' then "\\\""
  else if c = '\\' then "\\\\"
  else if c = (Char.ofNat 10) then "\\n"
  else if c = (Char.ofNat 13) then "\\r"
  else if c = (Char.ofNat 9) then "\\t"
  else String.mk [c]

def jsonEscape (s : String) : String :=
  s.data.foldl (fun acc c => acc ++ jsonEscapeChar c) ""

mutual
def jsonStringify : Json → String
  | .null => "null"
  | .bool true => "true"
  | .bool false => "false"
  | .num n => toString n
  | .str s => "\"" ++ jsonEscape s ++ "\""
  | .arr xs => "[" ++ jsonStringifyList xs ++ "]"
  | .obj fs => "\x7b" ++ jsonStringifyFields fs ++ "\x7d"

def jsonStringifyList : List Json → String
  | [] => ""
  | [x] => jsonStringify x
  | x :: xs => jsonStringify x ++ "," ++ jsonStringifyList xs

def jsonStringifyFields : List (String × Json) → String
  | [] => ""
  | [(k, v)] => "\"" ++ jsonEscape k ++ "\":" ++ jsonStringify v
  | (k, v) :: fs => "\"" ++ jsonEscape k ++ "\":" ++ jsonStringify v ++ "," ++ jsonStringifyFields fs
end

/-- The schema expression `swagger.paths[path][method].requestBody
.content[contentType].schema` together with the selected content type —
exactly the argument `getPayload` hands to `Instantiator.instantiate`
(lines 83-86), which is the *raw* stored schema: `getResolvedSchema` is
never invoked on it. -/
def getPayloadSchemaArgE (swagger : Json) (path method : String) :
    Except String (Option (String × Option Json)) := do
  let opOpt ← getOperationE swagger path method
  let rbOpt ← jsGetE opOpt "requestBody"
  match rbOpt with
  | none => pure none
  | some rb => do
    let contentOpt ← jsGetE (some rb) "content"
    match contentOpt with
    | none => pure none
    | some content => do
      let ctOpt ← firstContentTypeE content
      match ctOpt with
      | none => pure none
      | some ct => do
        let schemaOpt ← jsGetE (Json.get content ct) "schema"
        pure (some (ct, schemaOpt))

/-- `getPayload(swagger, path, method)` (lines 76-92), parameterized by the
external `Instantiator.instantiate` collaborator `inst`. -/
def getPayloadE (inst : Option Json → Json) (swagger : Json) (path method : String) :
    Except String (Option PostData) := do
  let argOpt ← getPayloadSchemaArgE swagger path method
  match argOpt with
  | none => pure none
  | some (ct, schemaOpt) =>
    pure (some { mimeType := ct, text := jsonStringify (inst schemaOpt) })

/-- `getBaseUrl(swagger)` (lines 137-141): `servers[0].url` when a truthy
`servers` has positive length, `undefined` otherwise. -/
def getBaseUrlE (swagger : Json) : Except String (Option Json) :=
  match Json.get swagger "servers" with
  | none => .ok none
  | some s =>
    if s.truthy && jsGtZero (jsLength s) then jsGetE (Json.get s "0") "url"
    else .ok none

/-- The assembled HAR request object (lines 41-57 plus the conditional
`postData` of line 61). `settingsPath` and the two parameter lists are the
`_swaggerSettings` block. -/
structure HarRequest where
  method : String
  url : String
  headers : List Entry
  queryString : List Entry
  httpVersion : String
  cookies : List Json
  headersSize : Int
  bodySize : Int
  originalMethod : Json
  settingsPath : String
  pathParams : List Entry
  requiredHeaderParams : List Entry
  postData : Option PostData
deriving Repr

/-- `JSON.parse(JSON.stringify(x))`: the identity deep copy on the JSON
values of this model; `JSON.stringify(undefined)` is `undefined`, on which
`JSON.parse` raises a SyntaxError. -/
def jsonRoundTripE : Option Json → Except String Json
  | some op => pure op
  | none => Except.error "SyntaxError: unexpected token in JSON"

/-- `createHar(swagger, path, method, queryParamValues, apiKey)` (lines 33-64),
with the collaborators evaluated in source order. `originalMethod` is the
`JSON.parse(JSON.stringify(...))` deep copy, the identity on the JSON values
of this model (the operation is defined here, or `getHeadersArray` would
already have thrown reading its `parameters`). -/
def createHarE (inst : Option Json → Json) (swagger : Json) (path method : String)
    (queryParamValues : Option Json) (apiKey : Option String) :
    Except String HarRequest := do
  let values := queryParamValues.getD (Json.obj [])
  let baseUrl ← getBaseUrlE swagger
  let headers ← getHeadersArrayE swagger path method apiKey
  let queryString ← getQueryStringsE swagger path method values
  let opOpt ← getOperationE swagger path method
  let originalMethod ← jsonRoundTripE opOpt
  let pathParams ← getPathParamsE swagger path method
  let requiredHeaderParams ← getRequiredHeaderParamsE swagger path method apiKey
  let postData ← getPayloadE inst swagger path method
  pure { method := asciiUpper method
       , url := jsToString baseUrl ++ path
       , headers := headers
       , queryString := queryString
       , httpVersion := "HTTP/1.1"
       , cookies := []
       , headersSize := 0
       , bodySize := 0
       , originalMethod := originalMethod
       , settingsPath := path
       , pathParams := pathParams
       , requiredHeaderParams := requiredHeaderParams
       , postData := postData }

/-- One element of the batch result (lines 271-278). -/
structure BatchEntry where
  method : String
  url : String
  description : Json
  har : HarRequest
deriving Repr

/-- One pushed element of the batch loop (lines 269-278): the url from the
base URL and path, the assembled request, and the operation description or
its literal fallback. -/
def harEntryE (inst : Option Json → Json) (swagger : Json) (baseUrl : Option Json)
    (path method : String) : Except String BatchEntry := do
  let url := jsToString baseUrl ++ path
  let har ← createHarE inst swagger path method none none
  let descOpt ← do
    let opOpt ← getOperationE swagger path method
    jsGetE opOpt "description"
  let description : Json :=
    match descOpt with
    | some d => if d.truthy then d else Json.str "No description available"
    | none => Json.str "No description available"
  pure { method := asciiUpper method, url := url, description := description, har := har }

/-- Inner loop of `swaggerToHarList` over the methods of one path. -/
def harMethodsLoopE (inst : Option Json → Json) (swagger : Json) (baseUrl : Option Json)
    (path : String) : List String → Except String (List BatchEntry)
  | [] => .ok []
  | method :: rest => do
    let e ← harEntryE inst swagger baseUrl path method
    let es ← harMethodsLoopE inst swagger baseUrl path rest
    pure (e :: es)

/-- Outer loop of `swaggerToHarList` over the declared paths. -/
def harPathsLoopE (inst : Option Json → Json) (swagger : Json) (baseUrl : Option Json) :
    List (String × Json) → Except String (List BatchEntry)
  | [] => .ok []
  | (path, methodsVal) :: rest => do
    let es ← harMethodsLoopE inst swagger baseUrl path ((forInPairs methodsVal).map Prod.fst)
    let rest2 ← harPathsLoopE inst swagger baseUrl rest
    pure (es ++ rest2)

/-- The body of `swaggerToHarList` inside its `try` (lines 262-282):
base URL, then one entry per declared path/method pair in document order. -/
def harListE (inst : Option Json → Json) (swagger : Json) :
    Except String (List BatchEntry) := do
  let baseUrl ← getBaseUrlE swagger
  harPathsLoopE inst swagger baseUrl (forInPairsO (Json.get swagger "paths"))

/-- `swaggerToHarList(swagger)` (lines 260-286): the whole iteration sits in
one `try`; any thrown error is caught and `null` is returned. -/
def swaggerToHarList (inst : Option Json → Json) (swagger : Json) :
    Option (List BatchEntry) :=
  match harListE inst swagger with
  | .ok l => some l
  | .error _ => none

/-! ## Helper lemmas -/

theorem exceptBind_ok_iff {α β : Type} (x : Except String α) (f : α → Except String β) (b : β) :
    (x >>= f = Except.ok b) ↔ ∃ a, x = .ok a ∧ f a = .ok b := by
  cases x with
  | error e => simp [Bind.bind, Except.bind]
  | ok a => simp [Bind.bind, Except.bind]

theorem jsGetE_some_eq {j : Json} (h : j ≠ Json.null) (k : String) :
    jsGetE (some j) k = .ok (j.get k) := by
  cases j <;> simp_all [jsGetE]

theorem forInPairs_arr_values (xs : List Json) :
    (forInPairs (Json.arr xs)).map Prod.snd = xs := by
  simp [forInPairs, List.map_map]
  exact List.enum_map_snd xs

/-! ## Concrete documents used by the claim theorems -/

/-- A query parameter of type `integer` with no example and no default. -/
def paramPage : Json :=
  .obj [("name", .str "page"), ("in", .str "query"),
        ("schema", .obj [("type", .str "integer")])]

def intQueryDoc : Json :=
  .obj [("paths", .obj [("/items", .obj [("get", .obj [("parameters", .arr [paramPage])])])])]

def petDef : Json :=
  .obj [("type", .str "object"),
        ("properties", .obj [("name", .obj [("type", .str "string")])])]

/-- A request-body schema holding a local reference to `#/definitions/Pet`. -/
def bodySchema : Json :=
  .obj [("type", .str "object"),
        ("properties", .obj [("pet", .obj [("$ref", .str "#/definitions/Pet")])])]

def resolvedBodySchema : Json :=
  .obj [("type", .str "object"), ("properties", .obj [("pet", petDef)])]

def petBodyDoc : Json :=
  .obj [ ("definitions", .obj [("Pet", petDef)])
       , ("paths", .obj [("/pets", .obj [("post", .obj
           [("requestBody", .obj [("content", .obj
             [("application/json", .obj [("schema", bodySchema)])])])])])])]

/-- A `Pet` definition whose nested local reference hides behind a node with
no declared `type`, so the Schema Resolver's recursion never reaches it. -/
def c5PetDef : Json :=
  .obj [("properties", .obj [("tag", .obj [("$ref", .str "#/definitions/Tag")])])]

def c5Doc : Json :=
  .obj [("definitions", .obj [("Pet", c5PetDef), ("Tag", .obj [("type", .str "string")])])]

def c5Outer : Json :=
  .obj [("type", .str "object"),
        ("properties", .obj [("pet", .obj [("$ref", .str "#/definitions/Pet")])])]

/-- The same parameter descriptor (name `id`, string schema, no example,
default `d7`, required) placed at the three locations. -/
def c4Param (loc : String) : Json :=
  .obj [("name", .str "id"), ("in", .str loc), ("required", .bool true),
        ("default", .str "d7"), ("schema", .obj [("type", .str "string")])]

def c4Doc (loc : String) : Json :=
  .obj [("paths", .obj [("/r", .obj [("get", .obj [("parameters", .arr [c4Param loc])])])])]

/-- A required header parameter stored under `#/parameters/AuthHeader`. -/
def c8AuthParam : Json :=
  .obj [("name", .str "X-Token"), ("in", .str "header"), ("required", .bool true),
        ("schema", .obj [("type", .str "string")]), ("example", .str "tok")]

def c8RefParam : Json := .obj [("$ref", .str "#/parameters/AuthHeader")]

def c8Doc : Json :=
  .obj [ ("parameters", .obj [("AuthHeader", c8AuthParam)])
       , ("paths", .obj [("/p", .obj [("get", .obj [("parameters", .arr [c8RefParam])])])])]

/-! ## C1 -/

/-- C1: the claim states that `getPayload` resolves the selected content
type's schema through `getResolvedSchema` before handing it to the external
instantiator. The code never calls `getResolvedSchema` (it is dead code):
for a body schema holding a local `$ref`, every instantiator receives the
raw stored schema, which still contains the local reference, although
`getResolvedSchema` would eliminate it — contradicting `getPayload`'s own
documentation ("References within the payload definition are resolved"). -/
theorem c1_payload_unresolved_code_bug :
    (∀ inst : Option Json → Json,
      getPayloadE inst petBodyDoc "/pets" "post" =
        .ok (some { mimeType := "application/json"
                  , text := jsonStringify (inst (some bodySchema)) })) ∧
    containsLocalRef bodySchema = true ∧
    getResolvedSchemaE 10 petBodyDoc (some bodySchema) = .ok resolvedBodySchema ∧
    containsLocalRef resolvedBodySchema = false :=
  ⟨fun _ => rfl, rfl, rfl, rfl⟩

/-! ## C2 -/

/-- C2: the claim (and §8 of the spec) require the synthesized value
`"SOME_INTEGER_VALUE"` for a query parameter with no example, no value-map
entry, no default and `schema.type = "integer"`. Because line 173 parses as
`(typeof param.schema) && (param.schema.example !== 'undefined')` — an
always-truthy `typeof` string and a comparison of the missing example against
the *string* `'undefined'` — the code instead emits the stringified missing
example, the literal `"undefined"`. -/
theorem c2_integer_placeholder_code_bug :
    getQueryStringsE intQueryDoc "/items" "get" (Json.obj []) =
      .ok [{ name := some (Json.str "page"), value := some (Json.str "undefined") }] ∧
    "undefined" ≠ "SOME_INTEGER_VALUE" :=
  ⟨rfl, by decide⟩

/-! ## C10 -/

/-- C10: the claim states `resolveRef` returns an empty object *only* for
pointers with no `/` separator. Counterexample: the two-segment pointer
`#/a` walks the document and returns the *stored* value, which can itself
be an empty object. -/
theorem c10_counterexample :
    resolveRefE (Json.obj [("a", Json.obj [])]) "#/a" = .ok (some (Json.obj [])) ∧
    (splitSlash "#/a").length = 2 :=
  ⟨rfl, rfl⟩

/-- C10 (amended): `resolveRef` yields the short-pointer fallback `{}`
exactly when the pointer splits into at most one segment; with two or more
segments it returns the walked value — which may itself be an empty object —
and a multi-segment pointer whose intermediate segment names an absent key
raises a TypeError (a key lookup on `undefined`). -/
theorem c10_amended_resolveRef :
    (∀ (oai : Json) (ref : String), (splitSlash ref).length ≤ 1 →
      resolveRefE oai ref = .ok (some (Json.obj []))) ∧
    (∀ oai : Json, oai ≠ Json.null → Json.get oai "a" = none →
      ∃ e, resolveRefE oai "#/a/b" = .error e) := by
  constructor
  · intro oai ref h
    unfold resolveRefE
    simp [h]
  · intro oai hnn hga
    refine ⟨"TypeError: cannot read property b of undefined", ?_⟩
    show resolveWalkE (some oai) ["a", "b"] = _
    unfold resolveWalkE
    rw [jsGetE_some_eq hnn, hga]
    rfl

/-- Closed instantiation of `c10_amended_resolveRef`. -/
theorem c10_amended_witness :
    resolveRefE (Json.obj [("x", Json.num 1)]) "#" = .ok (some (Json.obj [])) ∧
    ∃ e, resolveRefE (Json.obj [("x", Json.num 1)]) "#/a/b" = .error e :=
  ⟨c10_amended_resolveRef.1 (Json.obj [("x", Json.num 1)]) "#" (by decide),
   c10_amended_resolveRef.2 (Json.obj [("x", Json.num 1)])
     (fun h => Json.noConfusion h) rfl⟩

/-! ## C8 -/

/-- C8: the claim states that *every* classification route — path, query and
required-header extraction — resolves a Reference parameter before
inspecting its `in` field. Counterexample: a declared parameter that is a
local Reference to a required header. The header routes (`getHeadersArray`,
`getRequiredHeaderParams`) never call the Reference Resolver: they read
`in` off the raw `{$ref}` object, find it undefined, and silently drop the
parameter — although the Reference Resolver shows it designates a required
header parameter. -/
theorem c8_counterexample :
    getHeadersArrayE c8Doc "/p" "get" none =
      .ok [ { name := some (Json.str "accept"), value := some (Json.str "application/json") }
          , { name := some (Json.str "content-type"), value := some (Json.str "application/json") } ] ∧
    getRequiredHeaderParamsE c8Doc "/p" "get" none = .ok [] ∧
    resolveRefE c8Doc "#/parameters/AuthHeader" = .ok (some c8AuthParam) ∧
    Json.get c8AuthParam "in" = some (Json.str "header") ∧
    truthyO (Json.get c8AuthParam "required") = true :=
  ⟨rfl, rfl, rfl, rfl, rfl⟩

/-- C8 (amended): the path and query routes do resolve a local Reference
parameter through the Reference Resolver before inspecting `in`
(`paramRefResolveE` is their shared pre-resolution step), while the header
routes perform no resolution at all and silently drop any parameter without
an `in` field — in particular every Reference object — so no parameter
consumed downstream carries an unresolved `$ref`, but required headers
declared by reference are lost. -/
theorem c8_amended_classification :
    (∀ (swagger p0 : Json) (s : String),
      Json.get p0 "$ref" = some (Json.str s) → ¬ jsStartsWithHttp s → p0 ≠ Json.null →
      paramRefResolveE swagger p0 = resolveRefE swagger s) ∧
    (∀ (b : Bool) (apiKey : Option String) (p0 : Json),
      p0 ≠ Json.null → Json.get p0 "in" = none →
      hdrStepE b apiKey p0 = .ok none) := by
  constructor
  · intro swagger p0 s href hhttp hnn
    unfold paramRefResolveE
    rw [jsGetE_some_eq hnn, href]
    simp [Bind.bind, Except.bind, hhttp]
  · intro b apiKey p0 hnn hin
    unfold hdrStepE
    rw [jsGetE_some_eq hnn, hin]
    rfl

/-- Closed instantiation of `c8_amended_classification`. -/
theorem c8_amended_witness :
    paramRefResolveE c8Doc c8RefParam = resolveRefE c8Doc "#/parameters/AuthHeader" ∧
    hdrStepE true (some "KEY") c8RefParam = .ok none :=
  ⟨c8_amended_classification.1 c8Doc c8RefParam "#/parameters/AuthHeader" rfl
     (by decide) (fun h => Json.noConfusion h),
   c8_amended_classification.2 true (some "KEY") c8RefParam
     (fun h => Json.noConfusion h) rfl⟩

/-! ## C4 -/

/-- C4: the claim states path, query and required-header synthesis share one
four-step precedence (example, value map, default, placeholder), differing
only in placeholder naming. Counterexample: one identical descriptor —
name `id`, string schema, no example, default `"d7"`, empty value map —
yields three different values: path synthesis emits the default `"d7"`,
query synthesis emits `"undefined"` (the stringified missing
`schema.example`, which pre-empts the whole fallback chain), and
required-header synthesis emits the placeholder `"SOME_ID_VALUE"`,
never consulting the default. -/
theorem c4_counterexample :
    getPathParamsE (c4Doc "path") "/r" "get" =
      .ok [{ name := some (Json.str "id"), value := some (Json.str "d7")
           , etype := some (Json.str "string") }] ∧
    getQueryStringsE (c4Doc "query") "/r" "get" (Json.obj []) =
      .ok [{ name := some (Json.str "id"), value := some (Json.str "undefined") }] ∧
    getHeadersArrayE (c4Doc "header") "/r" "get" none =
      .ok [ { name := some (Json.str "accept"), value := some (Json.str "application/json") }
          , { name := some (Json.str "content-type"), value := some (Json.str "application/json") }
          , { name := some (Json.str "id"), value := some (Json.str "SOME_ID_VALUE")
            , etype := some (Json.str "string") } ] ∧
    ("d7" : String) ≠ "undefined" ∧ ("d7" : String) ≠ "SOME_ID_VALUE" :=
  ⟨rfl, rfl, rfl, by decide, by decide⟩

/-! ## C5 -/

/-- C5: the claim states that after schema resolution a property that carried
`$ref = "#/definitions/Pet"` contains no local `$ref` anywhere in its
subtree. Counterexample: a `Pet` definition whose own nested reference sits
under a node with no declared `type`: the resolver substitutes `Pet` for the
property but its recursion (guarded by `type === "object"` or `"array"`)
never descends, so the local reference `#/definitions/Tag` survives inside
the property's subtree. -/
theorem c5_counterexample :
    getResolvedSchemaE 10 c5Doc (some c5Outer) =
      .ok (Json.obj [("type", Json.str "object"),
                     ("properties", Json.obj [("pet", c5PetDef)])]) ∧
    jsGetE (Json.get c5Doc "definitions") "Pet" = .ok (some c5PetDef) ∧
    containsLocalRef c5PetDef = true :=
  ⟨rfl, rfl, rfl⟩

/-! ## C6 -/

theorem exbind_ok {α β : Type} (a : α) (f : α → Except String β) :
    (Except.ok a >>= f) = f a := rfl

theorem exbind_err {α β : Type} (e : String) (f : α → Except String β) :
    ((Except.error e : Except String α) >>= f) = .error e := rfl

/-- C6: batch conversion is all-or-nothing: whenever any step inside the
batch body (`harListE`, the code within the `try` of `swaggerToHarList`)
raises, the batch call returns `null`; otherwise it returns the complete
list — never a partial list and never a propagated exception. -/
theorem c6_batch_all_or_nothing (inst : Option Json → Json) (swagger : Json) :
    (∃ e, harListE inst swagger = .error e ∧ swaggerToHarList inst swagger = none) ∨
    (∃ l, harListE inst swagger = .ok l ∧ swaggerToHarList inst swagger = some l) := by
  cases h : harListE inst swagger with
  | error e => exact Or.inl ⟨e, rfl, by simp [swaggerToHarList, h]⟩
  | ok l => exact Or.inr ⟨l, rfl, by simp [swaggerToHarList, h]⟩

/-! ## C3 -/

/-- A query parameter whose schema declares `example = "42"`, with an
arbitrary optional schema type and an arbitrary optional `default`. -/
def c3Param (name : String) (tyF exD : Option Json) : Json :=
  Json.obj ([("name", Json.str name), ("in", Json.str "query"),
    ("schema", Json.obj (("example", Json.str "42") ::
      (match tyF with | some t => [("type", t)] | none => [])))] ++
    (match exD with | some d => [("default", d)] | none => []))

/-- C3: for a query parameter whose schema declares `example = "42"`, the
emitted query value is `"42"` for every caller-supplied value map (including
one with an entry for the parameter's name), regardless of any declared
default and of the declared schema type. -/
theorem c3_example_wins (swagger : Json) (path method name : String) (tyF exD : Option Json)
    (values op : Json)
    (hop : getOperationE swagger path method = .ok (some op))
    (hpar : Json.get op "parameters" = some (Json.arr [c3Param name tyF exD])) :
    getQueryStringsE swagger path method values =
      .ok [{ name := some (Json.str name), value := some (Json.str "42") }] := by
  have hnn : op ≠ Json.null := by
    rintro rfl
    simp [Json.get] at hpar
  unfold getQueryStringsE
  rw [hop, exbind_ok, jsGetE_some_eq hnn, hpar, exbind_ok]
  cases tyF <;> cases exD <;> rfl

def c3WitnessOp : Json :=
  Json.obj [("parameters", Json.arr [c3Param "page" (some (Json.str "integer")) (some (Json.str "7"))])]

def c3WitnessDoc : Json := Json.obj [("paths", Json.obj [("/q", Json.obj [("get", c3WitnessOp)])])]

/-- Closed instantiation of `c3_example_wins`, with a value-map entry for the
parameter's own name and a declared default. -/
theorem c3_witness :
    getQueryStringsE c3WitnessDoc "/q" "get" (Json.obj [("page", Json.str "99")]) =
      .ok [{ name := some (Json.str "page"), value := some (Json.str "42") }] :=
  c3_example_wins c3WitnessDoc "/q" "get" "page" (some (Json.str "integer"))
    (some (Json.str "7")) (Json.obj [("page", Json.str "99")]) c3WitnessOp rfl rfl

/-! ## C7 -/

/-- A required `Authorization` header parameter with schema type `ty`. -/
def authParam (ty : Json) : Json :=
  Json.obj [("name", Json.str "Authorization"), ("in", Json.str "header"),
            ("required", Json.bool true), ("schema", Json.obj [("type", ty)])]

/-- C7: for an operation declaring a required header parameter named exactly
`Authorization`, with API key `"KEY123"` supplied, the HAR headers contain
an entry valued `"Bearer KEY123"` while the required-header-params metadata
contains the unprefixed `"KEY123"` entry. -/
theorem c7_authorization_bearer (swagger : Json) (path method : String) (ty op : Json)
    (rest : List Json) (hs hr : List Entry)
    (hop : getOperationE swagger path method = .ok (some op))
    (hpar : Json.get op "parameters" = some (Json.arr (authParam ty :: rest)))
    (hH : getHeadersArrayE swagger path method (some "KEY123") = .ok hs)
    (hR : getRequiredHeaderParamsE swagger path method (some "KEY123") = .ok hr) :
    ({ name := some (Json.str "Authorization"), value := some (Json.str "Bearer KEY123"),
       etype := some ty } : Entry) ∈ hs ∧
    ({ name := some (Json.str "Authorization"), value := some (Json.str "KEY123"),
       etype := some ty } : Entry) ∈ hr := by
  have hnn : op ≠ Json.null := by
    rintro rfl
    simp [Json.get] at hpar
  have hstepH : hdrStepE true (some "KEY123") (authParam ty) =
      .ok (some { name := some (Json.str "Authorization"),
                  value := some (Json.str "Bearer KEY123"), etype := some ty }) := rfl
  have hstepR : hdrStepE false (some "KEY123") (authParam ty) =
      .ok (some { name := some (Json.str "Authorization"),
                  value := some (Json.str "KEY123"), etype := some ty }) := rfl
  constructor
  · unfold getHeadersArrayE at hH
    rw [hop, exbind_ok] at hH
    obtain ⟨ct, hct, hH⟩ := (exceptBind_ok_iff _ _ _).mp hH
    simp only [jsGetE_some_eq hnn, hpar, exbind_ok, forInPairs_arr_values] at hH
    rw [hdrLoopE, hstepH, exbind_ok] at hH
    obtain ⟨es, hes, hH⟩ := (exceptBind_ok_iff _ _ _).mp hH
    obtain ⟨es2, hes2, hes⟩ := (exceptBind_ok_iff _ _ _).mp hes
    simp only [pure, Except.pure, Except.ok.injEq] at hH hes
    subst hH
    subst hes
    simp [Option.toList]
  · unfold getRequiredHeaderParamsE at hR
    rw [hop, exbind_ok] at hR
    simp only [jsGetE_some_eq hnn, hpar, exbind_ok, forInPairs_arr_values] at hR
    rw [hdrLoopE, hstepR, exbind_ok] at hR
    obtain ⟨es, hes, hR⟩ := (exceptBind_ok_iff _ _ _).mp hR
    simp only [pure, Except.pure, Except.ok.injEq] at hR
    subst hR
    simp [Option.toList]

def c7Op : Json := Json.obj [("parameters", Json.arr [authParam (Json.str "string")])]

def c7Doc : Json := Json.obj [("paths", Json.obj [("/p", Json.obj [("post", c7Op)])])]

/-- Closed instantiation of `c7_authorization_bearer`. -/
theorem c7_witness :
    ({ name := some (Json.str "Authorization"), value := some (Json.str "Bearer KEY123"),
       etype := some (Json.str "string") } : Entry) ∈
      [ { name := some (Json.str "accept"), value := some (Json.str "application/json") }
      , { name := some (Json.str "content-type"), value := some (Json.str "application/json") }
      , { name := some (Json.str "Authorization"), value := some (Json.str "Bearer KEY123")
        , etype := some (Json.str "string") } ] ∧
    ({ name := some (Json.str "Authorization"), value := some (Json.str "KEY123"),
       etype := some (Json.str "string") } : Entry) ∈
      [ { name := some (Json.str "Authorization"), value := some (Json.str "KEY123")
        , etype := some (Json.str "string") } ] :=
  c7_authorization_bearer c7Doc "/p" "post" (Json.str "string") c7Op [] _ _ rfl rfl rfl rfl

/-! ## C9 -/

/-- When the base URL is `undefined`, any successfully assembled request has
url `"undefined" + path` and records `path` in its settings block. -/
theorem createHar_base_none (inst : Option Json → Json) (swagger : Json)
    (path method : String) (qpv : Option Json) (apiKey : Option String) (har : HarRequest)
    (hbase : getBaseUrlE swagger = .ok none)
    (h : createHarE inst swagger path method qpv apiKey = .ok har) :
    har.url = "undefined" ++ path ∧ har.settingsPath = path := by
  unfold createHarE at h
  rw [hbase, exbind_ok] at h
  obtain ⟨_, _, h⟩ := (exceptBind_ok_iff _ _ _).mp h
  obtain ⟨_, _, h⟩ := (exceptBind_ok_iff _ _ _).mp h
  obtain ⟨_, _, h⟩ := (exceptBind_ok_iff _ _ _).mp h
  obtain ⟨_, _, h⟩ := (exceptBind_ok_iff _ _ _).mp h
  obtain ⟨_, _, h⟩ := (exceptBind_ok_iff _ _ _).mp h
  obtain ⟨_, _, h⟩ := (exceptBind_ok_iff _ _ _).mp h
  obtain ⟨_, _, h⟩ := (exceptBind_ok_iff _ _ _).mp h
  have hl := Except.ok.inj h
  subst hl
  exact ⟨rfl, rfl⟩

theorem harMethodsLoop_url (inst : Option Json → Json) (swagger : Json) (path : String)
    (hbase : getBaseUrlE swagger = .ok none) :
    ∀ (ms : List String) (l : List BatchEntry),
      harMethodsLoopE inst swagger none path ms = .ok l →
      ∀ e ∈ l, e.url = "undefined" ++ e.har.settingsPath := by
  intro ms
  induction ms with
  | nil =>
    intro l h e he
    rw [harMethodsLoopE] at h
    simp only [Except.ok.injEq] at h
    subst h
    simp at he
  | cons m ms ih =>
    intro l h e he
    rw [harMethodsLoopE] at h
    obtain ⟨e1, he1, h⟩ := (exceptBind_ok_iff _ _ _).mp h
    obtain ⟨es, hes, h⟩ := (exceptBind_ok_iff _ _ _).mp h
    have hl := Except.ok.inj h
    subst hl
    rcases List.mem_cons.mp he with he | he
    · subst he
      unfold harEntryE at he1
      obtain ⟨har, hhar, he1⟩ := (exceptBind_ok_iff _ _ _).mp he1
      obtain ⟨_, _, he1⟩ := (exceptBind_ok_iff _ _ _).mp he1
      obtain ⟨_, _, he1⟩ := (exceptBind_ok_iff _ _ _).mp he1
      have he2 := Except.ok.inj he1
      subst he2
      have := createHar_base_none inst swagger path m none none har hbase hhar
      simp [this.2, jsToString]
    · exact ih es hes e he

theorem harPathsLoop_url (inst : Option Json → Json) (swagger : Json)
    (hbase : getBaseUrlE swagger = .ok none) :
    ∀ (ps : List (String × Json)) (l : List BatchEntry),
      harPathsLoopE inst swagger none ps = .ok l →
      ∀ e ∈ l, e.url = "undefined" ++ e.har.settingsPath := by
  intro ps
  induction ps with
  | nil =>
    intro l h e he
    rw [harPathsLoopE] at h
    simp only [Except.ok.injEq] at h
    subst h
    simp at he
  | cons p ps ih =>
    intro l h e he
    rw [harPathsLoopE] at h
    obtain ⟨es, hes, h⟩ := (exceptBind_ok_iff _ _ _).mp h
    obtain ⟨rest2, hrest2, h⟩ := (exceptBind_ok_iff _ _ _).mp h
    have hl := Except.ok.inj h
    subst hl
    rcases List.mem_append.mp he with he | he
    · exact harMethodsLoop_url inst swagger p.1 hbase _ es hes e he
    · exact ih rest2 hrest2 e he

/-- C9: with no `servers` entry (or an empty servers list), `getBaseUrl`
yields `undefined`, and every url assembled by `createHar` or emitted in the
batch entries is the string `"undefined"` concatenated with the raw path
template. -/
theorem c9_no_servers_undefined_url (inst : Option Json → Json) (swagger : Json)
    (path method : String) (qpv : Option Json) (apiKey : Option String)
    (hserv : Json.get swagger "servers" = none ∨
             Json.get swagger "servers" = some (Json.arr [])) :
    getBaseUrlE swagger = .ok none ∧
    (∀ har, createHarE inst swagger path method qpv apiKey = .ok har →
      har.url = "undefined" ++ path) ∧
    (∀ l, harListE inst swagger = .ok l →
      ∀ e ∈ l, e.url = "undefined" ++ e.har.settingsPath) := by
  have hbase : getBaseUrlE swagger = .ok none := by
    unfold getBaseUrlE
    rcases hserv with h | h
    all_goals rw [h]
    all_goals try rfl
  refine ⟨hbase, ?_, ?_⟩
  · intro har hh
    exact (createHar_base_none inst swagger path method qpv apiKey har hbase hh).1
  · intro l hl e he
    unfold harListE at hl
    rw [hbase, exbind_ok] at hl
    exact harPathsLoop_url inst swagger hbase _ l hl e he

def inst0 : Option Json → Json := fun _ => Json.null

def c9Doc : Json := Json.obj [("paths", Json.obj [("/x", Json.obj [("get", Json.obj [])])])]

def c9Har : HarRequest :=
  { method := "GET"
  , url := "undefined/x"
  , headers := [ { name := some (Json.str "accept"), value := some (Json.str "application/json") }
               , { name := some (Json.str "content-type"), value := some (Json.str "application/json") } ]
  , queryString := []
  , httpVersion := "HTTP/1.1"
  , cookies := []
  , headersSize := 0
  , bodySize := 0
  , originalMethod := Json.obj []
  , settingsPath := "/x"
  , pathParams := []
  , requiredHeaderParams := []
  , postData := none }

/-- Closed instantiation of `c9_no_servers_undefined_url`. -/
theorem c9_witness :
    getBaseUrlE c9Doc = .ok none ∧ c9Har.url = "undefined" ++ "/x" :=
  ⟨(c9_no_servers_undefined_url inst0 c9Doc "/x" "get" none none (Or.inl rfl)).1,
   (c9_no_servers_undefined_url inst0 c9Doc "/x" "get" none none (Or.inl rfl)).2.1 c9Har rfl⟩

/-! ## C5 (amended) -/

theorem propsLoopE_ok_split (sw : Json) (rc : Option Json → Except String Json) :
    ∀ (as bs : List (String × Json)) (out : List (String × Json)),
      propsLoopE sw rc (as ++ bs) = .ok out →
      ∃ l1 l2, out = l1 ++ l2 ∧ l1.length = as.length ∧
        propsLoopE sw rc as = .ok l1 ∧ propsLoopE sw rc bs = .ok l2 := by
  intro as
  induction as with
  | nil =>
    intro bs out h
    exact ⟨[], out, rfl, rfl, rfl, h⟩
  | cons kv as ih =>
    obtain ⟨k, v⟩ := kv
    intro bs out h
    rw [List.cons_append, propsLoopE] at h
    obtain ⟨v2, hv2, h⟩ := (exceptBind_ok_iff _ _ _).mp h
    obtain ⟨rest2, hrest2, h⟩ := (exceptBind_ok_iff _ _ _).mp h
    have hl := Except.ok.inj h
    subst hl
    obtain ⟨l1, l2, rfl, hlen, hone, htwo⟩ := ih bs rest2 hrest2
    refine ⟨(k, v2) :: l1, l2, rfl, by simp [hlen], ?_, htwo⟩
    rw [propsLoopE, hv2, exbind_ok, hone, exbind_ok]
    rfl

/-- For a pure local-reference node the property step is exactly: look the
pointer's last segment up in `swagger.definitions` and recurse into it. -/
theorem propStepE_ref (sw : Json) (rc : Option Json → Except String Json) (r : String)
    (hhttp : ¬ jsStartsWithHttp r) :
    propStepE sw rc (Json.obj [("$ref", Json.str r)]) =
      (jsGetE (Json.get sw "definitions") (lastSeg r)) >>= rc := by
  unfold propStepE
  simp [jsGetE, Json.get, Json.lookupField, hhttp, exbind_ok]

/-- C5 (amended): after resolution, a property that carried a local
`$ref` holds exactly the Schema Resolver's own resolution of the referenced
definitions entry (the definition node as further resolved in place; local
references of that definition reachable only through nodes not explicitly
typed `object`/`array` may survive inside it, as the counterexample shows). -/
theorem c5_amended_property_resolved (fuel : Nat) (swagger schema : Json)
    (fs1 fs2 : List (String × Json)) (pk r : String) (out : Json)
    (hty : Json.get schema "type" = some (Json.str "object"))
    (hprops : Json.get schema "properties" =
      some (Json.obj (fs1 ++ ((pk, Json.obj [("$ref", Json.str r)]) :: fs2))))
    (hhttp : ¬ jsStartsWithHttp r)
    (hrun : getResolvedSchemaE (fuel + 1) swagger (some schema) = .ok out) :
    ∃ (l1 l2 : List (String × Json)) (petRes : Json),
      out = Json.setField schema "properties" (Json.obj (l1 ++ (pk, petRes) :: l2)) ∧
      l1.length = fs1.length ∧
      ((jsGetE (Json.get swagger "definitions") (lastSeg r)) >>=
        getResolvedSchemaE fuel swagger) = Except.ok petRes := by
  have hnn : schema ≠ Json.null := by
    rintro rfl
    simp [Json.get] at hty
  rw [show fuel + 1 = Nat.succ fuel from rfl, getResolvedSchemaE] at hrun
  rotate_left
  · exact hnn
  simp only [hty, hprops] at hrun
  obtain ⟨fs3, hfs3, hrun⟩ := (exceptBind_ok_iff _ _ _).mp hrun
  have hout := Except.ok.inj hrun
  subst hout
  obtain ⟨l1, l2, rfl, hlen, hone, htwo⟩ :=
    propsLoopE_ok_split swagger (getResolvedSchemaE fuel swagger) fs1 _ fs3 hfs3
  rw [propsLoopE] at htwo
  rw [propStepE_ref swagger (getResolvedSchemaE fuel swagger) r hhttp] at htwo
  obtain ⟨v2, hv2, htwo⟩ := (exceptBind_ok_iff _ _ _).mp htwo
  obtain ⟨rest2, hrest2, htwo⟩ := (exceptBind_ok_iff _ _ _).mp htwo
  have hl := Except.ok.inj htwo
  subst hl
  exact ⟨l1, rest2, v2, rfl, hlen, hv2⟩

/-- Closed instantiation of `c5_amended_property_resolved` on the `Pet`
request-body document. -/
theorem c5_amended_witness :
    ∃ (l1 l2 : List (String × Json)) (petRes : Json),
      resolvedBodySchema = Json.setField bodySchema "properties" (Json.obj (l1 ++ ("pet", petRes) :: l2)) ∧
      l1.length = 0 ∧
      ((jsGetE (Json.get petBodyDoc "definitions") (lastSeg "#/definitions/Pet")) >>=
        getResolvedSchemaE 9 petBodyDoc) = Except.ok petRes :=
  c5_amended_property_resolved 9 petBodyDoc bodySchema [] [] "pet" "#/definitions/Pet"
    resolvedBodySchema rfl rfl (by decide) rfl

/-! ## C4 (amended) -/

/-- One descriptor, placed at location `loc`: name, required, schema type
`ty` with optional schema-level example `sexF`, optional descriptor-level
example `exF`, optional default `dF`. -/
def c4GenParam (loc name ty : String) (sexF exF dF : Option Json) : Json :=
  Json.obj ([("name", Json.str name), ("in", Json.str loc), ("required", Json.bool true),
    ("schema", Json.obj (("type", Json.str ty) ::
      (match sexF with | some se => [("example", se)] | none => [])))] ++
    (match exF with | some e => [("example", e)] | none => []) ++
    (match dF with | some d => [("default", d)] | none => []))

/-- The value selected by `exF`-then-fallback (the shape shared by the path
and header policies). -/
def rawPickValueSpec (exOpt : Option Json) (v : Json) : Json :=
  if truthyO exOpt then exOpt.getD Json.null else v

/-- Amended path policy: truthy raw `example`, else `default` (stringified),
else the type placeholder — the caller value map cannot reach path synthesis
(the function accepts none). -/
def pathSynthSpec (exF dF : Option Json) (ty : String) : Json :=
  rawPickValueSpec exF
    (match dF with
     | some d => Json.str (jsToStrJ d)
     | none => Json.str ("SOME_" ++ asciiUpper ty ++ "_VALUE"))

def qsPickValueSpec (ev : Option String) (v : String) : String :=
  match ev with
  | some s => if s ≠ "" then s else v
  | none => v

/-- Amended query policy: the stringified `schema.example` whenever it is
produced (absent example included, yielding `"undefined"`) and nonempty,
else value-map entry, else `default`, else the type placeholder. -/
def querySynthSpec (sexF dF : Option Json) (values : Json) (name ty : String) : String :=
  qsPickValueSpec (qsExampleVal sexF)
    (match Json.get values name with
     | some v => jsToStrJ v
     | none =>
       match dF with
       | some d => jsToStrJ d
       | none => "SOME_" ++ asciiUpper ty ++ "_VALUE")

/-- Amended required-header policy: truthy raw `example`, else the
name-based placeholder — no value-map step and no default step exist. -/
def headerSynthSpec (exF : Option Json) (name : String) : Json :=
  rawPickValueSpec exF (Json.str ("SOME_" ++ asciiUpper name ++ "_VALUE"))

theorem bind_ok_cont {α β : Type} {m : Except String α} {a : α}
    (k : α → Except String β) (hm : m = .ok a) : (m >>= k) = k a := by
  rw [hm]
  rfl

theorem rawPickValue_ok (exOpt : Option Json) {fb : Except String Json} {v : Json}
    (hfb : fb = .ok v) :
    rawPickValue exOpt fb = .ok (rawPickValueSpec exOpt v) := by
  cases h : truthyO exOpt <;>
    simp [rawPickValue, rawPickValueSpec, h, hfb, pure, Except.pure]

theorem qsPickValue_ok (ev : Option String) {fb : Except String String} {v : String}
    (hfb : fb = .ok v) :
    qsPickValue ev fb = .ok (qsPickValueSpec ev v) := by
  cases ev with
  | none => simpa [qsPickValue, qsPickValueSpec] using hfb
  | some s => by_cases hs : s = "" <;> simp [qsPickValue, qsPickValueSpec, hs, hfb, pure, Except.pure]

theorem hdr_auth_skip {β : Type} (b : Bool) (A B : Except String β) :
    (if b = true ∧ apiKeyTruthy none = true then A else B) = B := by
  rw [if_neg]
  rintro ⟨-, hk⟩
  simp [apiKeyTruthy] at hk

theorem c4GenParam_ne_null (loc name ty : String) (sexF exF dF : Option Json) :
    c4GenParam loc name ty sexF exF dF ≠ Json.null := by
  cases sexF <;> cases exF <;> cases dF <;> exact fun h => Json.noConfusion h

theorem c4GenParam_no_ref (loc name ty : String) (sexF exF dF : Option Json) :
    Json.get (c4GenParam loc name ty sexF exF dF) "$ref" = none := by
  cases sexF <;> cases exF <;> cases dF <;> rfl

theorem paramRefResolve_no_ref (swagger p0 : Json) (hnn : p0 ≠ Json.null)
    (h : Json.get p0 "$ref" = none) :
    paramRefResolveE swagger p0 = .ok (some p0) := by
  unfold paramRefResolveE
  rw [jsGetE_some_eq hnn, h]
  rfl

theorem ppFallback_on_c4 (name ty : String) (loc : String) (sexF exF dF : Option Json) :
    ppFallbackE (Json.obj []) (some (c4GenParam loc name ty sexF exF dF))
        (some (Json.str name)) (some (Json.str ty)) =
      .ok (match dF with
           | some d => Json.str (jsToStrJ d)
           | none => Json.str ("SOME_" ++ asciiUpper ty ++ "_VALUE")) := by
  cases sexF <;> cases exF <;> cases dF <;> rfl

theorem qsFallback_on_c4 (values : Json) (hv : values ≠ Json.null) (name ty : String)
    (sexF exF dF : Option Json) :
    qsFallbackE values (some (c4GenParam "query" name ty sexF exF dF))
        (some (Json.str name)) (some (Json.str ty)) =
      .ok (match Json.get values name with
           | some v => jsToStrJ v
           | none =>
             match dF with
             | some d => jsToStrJ d
             | none => "SOME_" ++ asciiUpper ty ++ "_VALUE") := by
  unfold qsFallbackE
  rw [jsGetE_some_eq hv]
  have hname : jsToString (some (Json.str name)) = name := rfl
  rw [hname]
  cases hm : Json.get values name with
  | some v => rfl
  | none => cases exF <;> cases dF <;> rfl

theorem ppCore_on_c4 (name ty : String) (sexF exF dF : Option Json) :
    ppCoreE (Json.obj []) (some (c4GenParam "path" name ty sexF exF dF)) =
      .ok (some { name := some (Json.str name), value := some (pathSynthSpec exF dF ty),
                  etype := some (Json.str ty) }) := by
  cases exF with
  | none => cases sexF <;> cases dF <;> rfl
  | some e =>
    have h1 : ppCoreE (Json.obj []) (some (c4GenParam "path" name ty sexF (some e) dF)) =
        rawPickValue (some e)
          (ppFallbackE (Json.obj []) (some (c4GenParam "path" name ty sexF (some e) dF))
            (some (Json.str name)) (some (Json.str ty))) >>=
          (fun value => Except.ok (some { name := some (Json.str name), value := some value,
                                          etype := some (Json.str ty) })) := rfl
    rw [h1, rawPickValue_ok _ (ppFallback_on_c4 name ty "path" sexF (some e) dF)]
    rfl

theorem qsCore_on_c4 (values : Json) (hv : values ≠ Json.null) (name ty : String)
    (sexF exF dF : Option Json) :
    qsCoreE values (some (c4GenParam "query" name ty sexF exF dF)) =
      .ok (some { name := some (Json.str name),
                  value := some (Json.str (querySynthSpec sexF dF values name ty)) }) := by
  cases sexF with
  | none => rfl
  | some se =>
    have h1 : qsCoreE values (some (c4GenParam "query" name ty (some se) exF dF)) =
        qsPickValue (qsExampleVal (some se))
          (qsFallbackE values (some (c4GenParam "query" name ty (some se) exF dF))
            (some (Json.str name)) (some (Json.str ty))) >>=
          (fun value => Except.ok (some { name := some (Json.str name),
                                          value := some (Json.str value), etype := none })) := rfl
    rw [h1, qsPickValue_ok _ (qsFallback_on_c4 values hv name ty (some se) exF dF)]
    rfl

theorem hdrStep_on_c4 (bearer : Bool) (name ty : String) (sexF exF dF : Option Json) :
    hdrStepE bearer none (c4GenParam "header" name ty sexF exF dF) =
      .ok (some { name := some (Json.str name), value := some (headerSynthSpec exF name),
                  etype := some (Json.str ty) }) := by
  have h1 : hdrStepE bearer none (c4GenParam "header" name ty sexF exF dF) =
      (if isAuthName (Json.get (c4GenParam "header" name ty sexF exF dF) "name") = true ∧
          apiKeyTruthy none = true then
        hdrAuthEntryE bearer none (c4GenParam "header" name ty sexF exF dF)
      else hdrPlainEntryE (c4GenParam "header" name ty sexF exF dF)) := rfl
  rw [h1, hdr_auth_skip]
  cases exF with
  | none => cases sexF <;> cases dF <;> rfl
  | some e =>
    have h2 : hdrPlainEntryE (c4GenParam "header" name ty sexF (some e) dF) =
        rawPickValue (some e) (hdrPlaceholderE (some (Json.str name))) >>=
          (fun value => Except.ok (some { name := some (Json.str name), value := some value,
                                          etype := some (Json.str ty) })) := rfl
    rw [h2, rawPickValue_ok _ (show hdrPlaceholderE (some (Json.str name)) =
      .ok (Json.str ("SOME_" ++ asciiUpper name ++ "_VALUE")) from rfl)]
    rfl

/-- C4 (amended): the three synthesis routes do *not* share one four-step
precedence. For one identical descriptor: path synthesis applies truthy raw
`example` → `default` → type placeholder, and can never consult a caller
value map (it accepts none — its `values` is the always-empty undeclared
global); query synthesis emits the stringified `schema.example` whenever it
is produced and nonempty — including the literal `"undefined"` when no
example is declared — and only otherwise falls through value-map → default
→ type placeholder; required-header synthesis (in both `getHeadersArray`
and `getRequiredHeaderParams`) applies truthy raw `example` → name
placeholder, with no value-map and no default step. -/
theorem c4_amended_synthesis
    (s1 s2 s3 : Json) (p1 m1 p2 m2 p3 m3 name ty : String)
    (sexF exF dF : Option Json) (values op1 op2 op3 : Json)
    (h1 : getOperationE s1 p1 m1 = .ok (some op1))
    (hp1 : Json.get op1 "parameters" = some (Json.arr [c4GenParam "path" name ty sexF exF dF]))
    (h2 : getOperationE s2 p2 m2 = .ok (some op2))
    (hp2 : Json.get op2 "parameters" = some (Json.arr [c4GenParam "query" name ty sexF exF dF]))
    (h3 : getOperationE s3 p3 m3 = .ok (some op3))
    (hp3 : Json.get op3 "parameters" = some (Json.arr [c4GenParam "header" name ty sexF exF dF]))
    (htr3 : op3.truthy = true)
    (hrb3 : Json.get op3 "requestBody" = none)
    (hv : values ≠ Json.null) :
    getPathParamsE s1 p1 m1 =
      .ok [{ name := some (Json.str name), value := some (pathSynthSpec exF dF ty),
             etype := some (Json.str ty) }] ∧
    getQueryStringsE s2 p2 m2 values =
      .ok [{ name := some (Json.str name),
             value := some (Json.str (querySynthSpec sexF dF values name ty)) }] ∧
    getHeadersArrayE s3 p3 m3 none =
      .ok [{ name := some (Json.str "accept"), value := some (Json.str "application/json") },
           { name := some (Json.str "content-type"), value := some (Json.str "application/json") },
           { name := some (Json.str name), value := some (headerSynthSpec exF name),
             etype := some (Json.str ty) }] ∧
    getRequiredHeaderParamsE s3 p3 m3 none =
      .ok [{ name := some (Json.str name), value := some (headerSynthSpec exF name),
             etype := some (Json.str ty) }] := by
  have hnn1 : op1 ≠ Json.null := by rintro rfl; simp [Json.get] at hp1
  have hnn2 : op2 ≠ Json.null := by rintro rfl; simp [Json.get] at hp2
  have hnn3 : op3 ≠ Json.null := by rintro rfl; simp [Json.get] at hp3
  refine ⟨?_, ?_, ?_, ?_⟩
  · unfold getPathParamsE
    rw [h1, exbind_ok, jsGetE_some_eq hnn1, hp1, exbind_ok]
    show ppLoopE s1 (Json.obj []) [c4GenParam "path" name ty sexF exF dF] = _
    rw [ppLoopE,
      bind_ok_cont _ (paramRefResolve_no_ref s1 _ (c4GenParam_ne_null _ _ _ _ _ _)
        (c4GenParam_no_ref _ _ _ _ _ _)),
      bind_ok_cont _ (ppCore_on_c4 name ty sexF exF dF)]
    rfl
  · unfold getQueryStringsE
    rw [h2, exbind_ok, jsGetE_some_eq hnn2, hp2, exbind_ok]
    show qsLoopE s2 values [c4GenParam "query" name ty sexF exF dF] = _
    rw [qsLoopE,
      bind_ok_cont _ (paramRefResolve_no_ref s2 _ (c4GenParam_ne_null _ _ _ _ _ _)
        (c4GenParam_no_ref _ _ _ _ _ _)),
      bind_ok_cont _ (qsCore_on_c4 values hv name ty sexF exF dF)]
    rfl
  · have hct : headersContentTypeE (some op3) = .ok (some "application/json") := by
      unfold headersContentTypeE
      simp [htr3, hrb3, pure, Except.pure]
    have hloop : hdrLoopE true none [c4GenParam "header" name ty sexF exF dF] =
        .ok [{ name := some (Json.str name), value := some (headerSynthSpec exF name),
               etype := some (Json.str ty) }] := by
      rw [hdrLoopE, bind_ok_cont _ (hdrStep_on_c4 true name ty sexF exF dF)]
      rfl
    unfold getHeadersArrayE
    rw [h3, exbind_ok, bind_ok_cont _ hct, jsGetE_some_eq hnn3, hp3]
    show (hdrLoopE true none [c4GenParam "header" name ty sexF exF dF] >>= fun declared =>
      Except.ok ({ name := some (Json.str "accept"), value := some (Json.str "application/json"),
                   etype := none } ::
        { name := some (Json.str "content-type"), value := some (Json.str "application/json"),
          etype := none } :: declared)) = _
    rw [hloop]
    rfl
  · have hloop : hdrLoopE false none [c4GenParam "header" name ty sexF exF dF] =
        .ok [{ name := some (Json.str name), value := some (headerSynthSpec exF name),
               etype := some (Json.str ty) }] := by
      rw [hdrLoopE, bind_ok_cont _ (hdrStep_on_c4 false name ty sexF exF dF)]
      rfl
    unfold getRequiredHeaderParamsE
    rw [h3, exbind_ok, jsGetE_some_eq hnn3, hp3]
    show hdrLoopE false none [c4GenParam "header" name ty sexF exF dF] = _
    rw [hloop]

def c4WOp (loc : String) : Json :=
  Json.obj [("parameters", Json.arr [c4GenParam loc "id" "string" none none (some (Json.str "d7"))])]

def c4WDoc (loc : String) : Json :=
  Json.obj [("paths", Json.obj [("/r", Json.obj [("get", c4WOp loc)])])]

/-- Closed instantiation of `c4_amended_synthesis`. -/
theorem c4_amended_witness :
    getPathParamsE (c4WDoc "path") "/r" "get" =
      .ok [{ name := some (Json.str "id"),
             value := some (pathSynthSpec none (some (Json.str "d7")) "string"),
             etype := some (Json.str "string") }] ∧
    getQueryStringsE (c4WDoc "query") "/r" "get" (Json.obj []) =
      .ok [{ name := some (Json.str "id"),
             value := some (Json.str (querySynthSpec none (some (Json.str "d7"))
               (Json.obj []) "id" "string")) }] ∧
    getHeadersArrayE (c4WDoc "header") "/r" "get" none =
      .ok [{ name := some (Json.str "accept"), value := some (Json.str "application/json") },
           { name := some (Json.str "content-type"), value := some (Json.str "application/json") },
           { name := some (Json.str "id"), value := some (headerSynthSpec none "id"),
             etype := some (Json.str "string") }] ∧
    getRequiredHeaderParamsE (c4WDoc "header") "/r" "get" none =
      .ok [{ name := some (Json.str "id"), value := some (headerSynthSpec none "id"),
             etype := some (Json.str "string") }] :=
  c4_amended_synthesis (c4WDoc "path") (c4WDoc "query") (c4WDoc "header")
    "/r" "get" "/r" "get" "/r" "get" "id" "string" none none (some (Json.str "d7"))
    (Json.obj []) (c4WOp "path") (c4WOp "query") (c4WOp "header")
    rfl rfl rfl rfl rfl rfl rfl rfl (fun h => Json.noConfusion h)
